import Mathlib

set_option maxRecDepth 8000

deriving instance DecidableEq for Except

/-!
Shallow embedding of the sensor-log parsing and gait-metrics engine of the
Gait-Analysis repository, together with theorems settling the claims about it.

Sources embedded:
  * src/services/advancedHeaderParser.ts  (AdvancedHeaderParser.parseFileContent,
    parseColumnHeader, findDataStartLine)
  * src/services/headerParser.ts          (HeaderParser.parseSecondHeader,
    parseColumnDescription, parseSingleColumn, analyzeFileStructure)
  * src/services/csvParser.ts             (EnhancedGaitParser.parseCompleteFile,
    extractMultiIMUData)
  * src/services/gaitParser.ts            (GaitParser.detectPeaks)
  * src/services/analysisService.ts       (AnalysisService.findLocalMaxima,
    calculateStepMetrics, calculateGaitPhases, calculateSymmetryIndex)
  * src/utils/gaitCalculations.ts         (calculateCadence)

Modelling conventions.
JavaScript numbers are modelled by the rationals; a value of type
Option ℚ is a JavaScript number where none stands for NaN (the
non-finite values Infinity and -Infinity are not modelled — no claim
exercises them, and no concrete input used below produces them).
Exceptions are modelled by Except String.  Strings are processed as
their character lists, and every string operation of the source
(trim, split, startsWith, the regular-expression matches) is
re-implemented structurally on character lists so that concrete runs
of the embedding reduce inside the kernel; the character class of the
re-implementations is the common JavaScript whitespace class
(space, tab, newline, carriage return, vertical tab, form feed).
JS objects used as string-keyed maps are modelled as insertion-ordered
association lists, which matches JS property insertion order.
Fields of the source records that no claim touches (console logging,
Date-valued header metadata, the name/unit/index fields of simple-parser
columns, which the demultiplexers never read) are omitted.
-/

namespace GaitVerify

/-- A JavaScript number: some q is a finite value, none is NaN. -/
abbrev JSVal := Option ℚ

/-- Characters matched by the JavaScript whitespace class used by
trim, split on whitespace runs and parseFloat. -/
def isJsSpace (c : Char) : Bool :=
  c == ' ' || c == '\t' || c == '\n' || c == '\r' || c == '\x0b' || c == '\x0c'

/-- The character list of a string literal. -/
def str (s : String) : List Char := s.data

/-- JS String.prototype.trim. -/
def trimChars (l : List Char) : List Char :=
  ((l.dropWhile isJsSpace).reverse.dropWhile isJsSpace).reverse

/-- JS String.prototype.startsWith. -/
def startsWithChars (pat l : List Char) : Bool :=
  pat.isPrefixOf l

/-- Split a character list at every occurrence of a separator character;
JS String.prototype.split with a one-character string separator. -/
def splitOnCharAux (sep : Char) : List Char → List Char → List (List Char)
  | [], cur => [cur.reverse]
  | c :: t, cur =>
    if c = sep then cur.reverse :: splitOnCharAux sep t []
    else splitOnCharAux sep t (c :: cur)

def splitOnChar (sep : Char) (l : List Char) : List (List Char) :=
  splitOnCharAux sep l []

/-- The whitespace-delimited tokens of a line; JS
line.split(whitespace-run regex) followed by filtering out empty strings. -/
def wsTokensAux : List Char → List Char → List (List Char)
  | [], cur => if cur.isEmpty then [] else [cur.reverse]
  | c :: t, cur =>
    if isJsSpace c then
      if cur.isEmpty then wsTokensAux t [] else cur.reverse :: wsTokensAux t []
    else wsTokensAux t (c :: cur)

def wsTokens (l : List Char) : List (List Char) :=
  wsTokensAux l []

/-- Substring containment; JS String.prototype.includes. -/
def listContainsAux (hay pat : List Char) : Bool :=
  match hay with
  | [] => pat.isEmpty
  | _ :: t => pat.isPrefixOf hay || listContainsAux t pat

def containsSub (l pat : List Char) : Bool :=
  listContainsAux l pat

/-- The natural number denoted by a list of decimal digits;
JS parseInt on a match of a digits-only capture group. -/
def digitsToNat (ds : List Char) : Nat :=
  ds.foldl (fun n c => 10 * n + (c.toNat - '0'.toNat)) 0

/-- JS parseFloat: skip leading whitespace, optional sign, decimal digits
with optional fraction and optional exponent; the longest valid numeric
prefix is converted, and none (NaN) is returned when no prefix is numeric. -/
def jsParseFloat (l : List Char) : JSVal :=
  let cs := l.dropWhile isJsSpace
  let signRest : ℚ × List Char :=
    match cs with
    | '-' :: rest => (-1, rest)
    | '+' :: rest => (1, rest)
    | _ => (1, cs)
  let sign := signRest.1
  let cs1 := signRest.2
  let ip := cs1.takeWhile Char.isDigit
  let r1 := cs1.dropWhile Char.isDigit
  let fpRest : List Char × List Char :=
    match r1 with
    | '.' :: rest => (rest.takeWhile Char.isDigit, rest.dropWhile Char.isDigit)
    | _ => ([], r1)
  let fp := fpRest.1
  let r2 := fpRest.2
  if ip.isEmpty && fp.isEmpty then none
  else
    let mant : ℚ := (digitsToNat ip : ℚ) + (digitsToNat fp : ℚ) / (10 : ℚ) ^ fp.length
    let value : ℚ :=
      match r2 with
      | e :: rest =>
        if e = 'e' || e = 'E' then
          let esignRest : ℤ × List Char :=
            match rest with
            | '-' :: r => (-1, r)
            | '+' :: r => (1, r)
            | _ => (1, rest)
          let eds := esignRest.2.takeWhile Char.isDigit
          if eds.isEmpty then mant
          else mant * (10 : ℚ) ^ (esignRest.1 * (digitsToNat eds : ℤ))
        else mant
      | [] => mant
    some (sign * value)

/-- The parsed float values of a data line:
line.split(whitespace).filter(nonempty).map(parseFloat). -/
def lineValues (l : List Char) : List JSVal :=
  (wsTokens l).map jsParseFloat

/-- content.split newline, keeping only lines with nonempty trim —
the shared first step of every parser in the repository. -/
def splitContentLines (content : String) : List (List Char) :=
  (splitOnChar '\n' (str content)).filter (fun l => !(trimChars l).isEmpty)

/-! ## Advanced header parser: column schema (parseColumnHeader) -/

inductive SensorType
  | acceleration
  | gyroscope
deriving DecidableEq, Fintype

inductive Axis
  | x
  | y
  | z
deriving DecidableEq, Fintype

structure SensorDef where
  type : SensorType
  sensorId : List Char
  axis : Axis
deriving DecidableEq

structure ColumnInfo where
  totalColumns : Nat
  sensorDefinitions : List SensorDef
  sensorIds : List (List Char)
  hasGaitParameters : Bool
  hasADCValues : Bool
  adcValueCount : Nat
deriving DecidableEq

/-- Matcher for the header regex (hash, whitespace, digit capture,
whitespace, rest capture) at one starting position; the final
backtracking case hands the last whitespace character to the rest
capture when nothing follows it. -/
def headerMatchAt : List Char → Option (List Char × List Char)
  | '#' :: rest =>
    let ws1 := rest.takeWhile isJsSpace
    let r1 := rest.dropWhile isJsSpace
    if ws1.isEmpty then none
    else
      let ds := r1.takeWhile Char.isDigit
      let r2 := r1.dropWhile Char.isDigit
      if ds.isEmpty then none
      else
        let ws2 := r2.takeWhile isJsSpace
        let r3 := r2.dropWhile isJsSpace
        if ws2.isEmpty then none
        else if !r3.isEmpty then some (ds, r3)
        else if 2 ≤ ws2.length then some (ds, ws2.drop (ws2.length - 1))
        else none
  | _ => none

/-- Leftmost match of the header regex over all starting positions. -/
def headerMatch : List Char → Option (List Char × List Char)
  | [] => none
  | c :: t =>
    match headerMatchAt (c :: t) with
    | some r => some r
    | none => headerMatch t

/-- Matcher for the sensor-descriptor regex (digit capture, literal x,
AccelerationId or GyroscopeId, digit capture) at one starting position. -/
def matchSensorAt (cs : List Char) : Option (Nat × SensorType × List Char) :=
  let ds := cs.takeWhile Char.isDigit
  let r1 := cs.dropWhile Char.isDigit
  if ds.isEmpty then none
  else
    match r1 with
    | 'x' :: r2 =>
      if (str "AccelerationId").isPrefixOf r2 then
        let ids := (r2.drop (str "AccelerationId").length).takeWhile Char.isDigit
        if ids.isEmpty then none else some (digitsToNat ds, SensorType.acceleration, ids)
      else if (str "GyroscopeId").isPrefixOf r2 then
        let ids := (r2.drop (str "GyroscopeId").length).takeWhile Char.isDigit
        if ids.isEmpty then none else some (digitsToNat ds, SensorType.gyroscope, ids)
      else none
    | _ => none

/-- Leftmost match of the sensor-descriptor regex. -/
def matchSensor : List Char → Option (Nat × SensorType × List Char)
  | [] => none
  | c :: t =>
    match matchSensorAt (c :: t) with
    | some r => some r
    | none => matchSensor t

/-- Matcher for the ADC regex (digit capture, literal xADCValueId)
at one starting position. -/
def matchADCAt (cs : List Char) : Option Nat :=
  let ds := cs.takeWhile Char.isDigit
  let r1 := cs.dropWhile Char.isDigit
  if ds.isEmpty then none
  else
    match r1 with
    | 'x' :: r2 => if (str "ADCValueId").isPrefixOf r2 then some (digitsToNat ds) else none
    | _ => none

/-- Leftmost match of the ADC regex. -/
def matchADC : List Char → Option Nat
  | [] => none
  | c :: t =>
    match matchADCAt (c :: t) with
    | some r => some r
    | none => matchADC t

def axesList : List Axis := [Axis.x, Axis.y, Axis.z]

/-- The inner expansion loop of parseColumnHeader: for j from 0 while
j < count and j < 3, push a descriptor with axis axesList j. -/
def expandSensorDefs (count : Nat) (ty : SensorType) (sensorId : List Char) : List SensorDef :=
  (List.range (min count 3)).map fun j => ⟨ty, sensorId, axesList.getD j Axis.x⟩

/-- JS Set insertion: append if not already present. -/
def addSensorId (ids : List (List Char)) (id : List Char) : List (List Char) :=
  if id ∈ ids then ids else ids ++ [id]

def gaitPatterns : List (List Char) :=
  [str "StepTime", str "DeltaYaw", str "DeltaPitch", str "DeltaRoll",
   str "PrevStanceTime", str "PrevSwingTime", str "TimeSymmetry",
   str "YawSymmetry", str "PitchSymmetry", str "RollSymmetry",
   str "StanceSymmetry", str "SwingSymmetry"]

structure HeaderState where
  sensorDefinitions : List SensorDef
  sensorIds : List (List Char)
  hasGaitParameters : Bool
  hasADCValues : Bool
  adcValueCount : Nat
deriving DecidableEq

/-- The per-descriptor body of the parseColumnHeader loop. -/
def processDescriptor (st : HeaderState) (desc : List Char) : HeaderState :=
  if desc.isEmpty then st
  else if containsSub desc (str "Clk[s]") then st
  else if containsSub desc (str "ADCValueId") then
    { st with
      hasADCValues := true
      adcValueCount := st.adcValueCount + (match matchADC desc with | some n => n | none => 0) }
  else
    match matchSensor desc with
    | some (count, ty, idChars) =>
      { st with
        sensorIds := addSensorId st.sensorIds idChars
        sensorDefinitions := st.sensorDefinitions ++ expandSensorDefs count ty idChars }
    | none =>
      if gaitPatterns.any (fun p => containsSub desc p) then
        { st with hasGaitParameters := true }
      else st

/-- AdvancedHeaderParser.parseColumnHeader. -/
def parseColumnHeader (headerLine : List Char) : ColumnInfo :=
  match headerMatch headerLine with
  | none => ⟨0, [], [], false, false, 0⟩
  | some (ds, rest) =>
    let totalColumns := digitsToNat ds
    let descriptors := splitOnChar '_' rest
    let st := descriptors.foldl processDescriptor ⟨[], [], false, false, 0⟩
    ⟨totalColumns, st.sensorDefinitions, st.sensorIds,
     st.hasGaitParameters, st.hasADCValues, st.adcValueCount⟩

/-! ## Advanced parser: data region and row demultiplexing (parseFileContent) -/

structure Axes3 where
  x : List JSVal
  y : List JSVal
  z : List JSVal
deriving DecidableEq

def emptyAxes : Axes3 := ⟨[], [], []⟩

structure SensorSeries where
  acceleration : Axes3
  gyroscope : Axes3
deriving DecidableEq

def emptySeries : SensorSeries := ⟨emptyAxes, emptyAxes⟩

/-- The imus record: a string-keyed JS object in insertion order. -/
abbrev Imus := List (List Char × SensorSeries)

def imusFind : Imus → List Char → Option SensorSeries
  | [], _ => none
  | (k, s) :: t, key => if k = key then some s else imusFind t key

/-- Overwrite the value at a key; unchanged when the key is absent
(the source only assigns to keys it has just ensured exist). -/
def imusSet : Imus → List Char → SensorSeries → Imus
  | [], _, _ => []
  | (k, s) :: t, key, v => if k = key then (k, v) :: t else (k, s) :: imusSet t key v

def imusEnsure (imus : Imus) (key : List Char) : Imus :=
  match imusFind imus key with
  | some _ => imus
  | none => imus ++ [(key, emptySeries)]

def pushAxis (a : Axes3) (axis : Axis) (v : JSVal) : Axes3 :=
  match axis with
  | Axis.x => { a with x := a.x ++ [v] }
  | Axis.y => { a with y := a.y ++ [v] }
  | Axis.z => { a with z := a.z ++ [v] }

def pushSeries (s : SensorSeries) (ty : SensorType) (axis : Axis) (v : JSVal) : SensorSeries :=
  match ty with
  | SensorType.acceleration => { s with acceleration := pushAxis s.acceleration axis v }
  | SensorType.gyroscope => { s with gyroscope := pushAxis s.gyroscope axis v }

/-- The per-row sensor-definition loop of parseFileContent: starting at
valueIndex 1, stop (break) as soon as valueIndex reaches the row width,
otherwise ensure the IMU bucket exists and push the current value. -/
def processRowDefs : List SensorDef → Nat → List JSVal → Imus → Imus
  | [], _, _, imus => imus
  | d :: ds, valueIndex, values, imus =>
    if h : valueIndex < values.length then
      let imuKey := str "IMU" ++ d.sensorId
      let imus1 := imusEnsure imus imuKey
      let v := values.get ⟨valueIndex, h⟩
      let series := (imusFind imus1 imuKey).getD emptySeries
      let imus2 := imusSet imus1 imuKey (pushSeries series d.type d.axis v)
      processRowDefs ds (valueIndex + 1) values imus2
    else imus

/-- The per-line body of the parseFileContent data loop: skip hash lines
and blank lines, skip rows with fewer than 2 values or a NaN first value,
otherwise push the timestamp and demultiplex the row. -/
def processDataLine (defs : List SensorDef) (acc : List ℚ × Imus) (line : List Char) :
    List ℚ × Imus :=
  if startsWithChars (str "#") line || (trimChars line).isEmpty then acc
  else
    let values := lineValues line
    if values.length < 2 then acc
    else
      match values.headD none with
      | none => acc
      | some t => (acc.1 ++ [t], processRowDefs defs 1 values acc.2)

/-- Index of the first line whose trimmed text starts with the sentinel
token, or the number of lines when there is none. -/
def findDataEndLine : List (List Char) → Nat
  | [] => 0
  | l :: t => if startsWithChars (str "#16") (trimChars l) then 0 else findDataEndLine t + 1

/-- A line that findDataStartLine recognizes as the start of data:
does not start with a hash, nonempty trim, and the first
whitespace-delimited token parses to a non-NaN number. -/
def isDataLine (line : List Char) : Bool :=
  !startsWithChars (str "#") line && !(trimChars line).isEmpty &&
    (match wsTokens line with
     | [] => false
     | v :: _ => (jsParseFloat v).isSome)

/-- AdvancedHeaderParser.findDataStartLine: scan from line 0, stop at the
first sentinel line, record the first data line.  The source loop keeps
scanning after recording the first data line but never overwrites it, so
returning at the first hit is observably identical; -1 is none. -/
def findDataStartLineAux : List (List Char) → Nat → Option Nat
  | [], _ => none
  | l :: t, i =>
    if startsWithChars (str "#16") (trimChars l) then none
    else if isDataLine l then some i
    else findDataStartLineAux t (i + 1)

def findDataStartLine (lines : List (List Char)) : Option Nat :=
  findDataStartLineAux lines 0

/-- The slice of lines the parseFileContent data loop iterates over:
empty when no data start was found or when it is not before the data end
(the source returns early in those cases, with the same result as
folding over an empty slice). -/
def dataRegion (lines : List (List Char)) : List (List Char) :=
  match findDataStartLine lines with
  | none => []
  | some s =>
    let e := findDataEndLine lines
    if e ≤ s then [] else (lines.take e).drop s

structure ParsedFile where
  imus : Imus
  timestamps : List ℚ
  totalRows : Nat
  dataEndLine : Nat
  sensorIds : List (List Char)
  columnCount : Nat
deriving DecidableEq

/-- AdvancedHeaderParser.parseFileContent.  The thrown error is the
Except.error case; metadata fields that no claim reads are omitted. -/
def parseFileContentE (content : String) : Except String ParsedFile :=
  let lines := splitContentLines content
  if lines.length < 3 then Except.error "Invalid file format: insufficient lines"
  else
    let dataEndLine := findDataEndLine lines
    let columnInfo := parseColumnHeader (lines.getD 1 [])
    let initImus : Imus := columnInfo.sensorIds.map fun id => (str "IMU" ++ id, emptySeries)
    let folded := (dataRegion lines).foldl (processDataLine columnInfo.sensorDefinitions)
      ([], initImus)
    Except.ok ⟨folded.2, folded.1, folded.1.length, dataEndLine,
      columnInfo.sensorIds, columnInfo.totalColumns⟩

/-! ## Simple header parser (HeaderParser of headerParser.ts)

Only the fields the demultiplexers read (type, sensorId, axis) are
modelled for a column; name, unit and the index counter are omitted
(parseSecondHeader overwrites every index and extractMultiIMUData maps
row values to columns positionally). -/

inductive ColType
  | timestamp
  | acceleration
  | gyroscope
  | gaitParameter
deriving DecidableEq

structure SensorColumn where
  type : ColType
  sensorId : Option (List Char)
  axis : Option Axis
deriving DecidableEq

/-- The anchored count regex of parseColumnDescription: leading digit
capture followed by a literal x. -/
def anchoredCountMatch (cs : List Char) : Option (Nat × List Char) :=
  let ds := cs.takeWhile Char.isDigit
  let r := cs.dropWhile Char.isDigit
  if ds.isEmpty then none
  else
    match r with
    | 'x' :: rest => some (digitsToNat ds, rest)
    | _ => none

/-- Leftmost match of a literal token followed by a digit capture
(the AccelerationId and GyroscopeId id regexes). -/
def matchTokThenDigits (tok : List Char) : List Char → Option (List Char)
  | [] => none
  | c :: t =>
    if tok.isPrefixOf (c :: t) then
      let ds := ((c :: t).drop tok.length).takeWhile Char.isDigit
      if ds.isEmpty then matchTokThenDigits tok t else some ds
    else matchTokThenDigits tok t

/-- HeaderParser.parseSingleColumn. -/
def parseSingleColumn (description : List Char) : SensorColumn :=
  if containsSub description (str "Clk") then ⟨ColType.timestamp, none, none⟩
  else ⟨ColType.gaitParameter, none, none⟩

/-- HeaderParser.parseColumnDescription.  The type/sensorId resolution
chain follows the source's includes checks in order; the branches that
assign gait_parameter (ADCValueId, the gait keywords) coincide with the
default and are folded into it. -/
def parseColumnDescription (description : List Char) : List SensorColumn :=
  match anchoredCountMatch description with
  | none => [parseSingleColumn description]
  | some (count, rest) =>
    if containsSub rest (str "AccelerationId") then
      let sensorId :=
        match matchTokThenDigits (str "AccelerationId") rest with
        | some ds => ds
        | none => str "0"
      (List.range count).map fun i =>
        ⟨ColType.acceleration, some sensorId, some (axesList.getD (i % 3) Axis.x)⟩
    else if containsSub rest (str "GyroscopeId") then
      let sensorId :=
        match matchTokThenDigits (str "GyroscopeId") rest with
        | some ds => ds
        | none => str "0"
      (List.range count).map fun i =>
        ⟨ColType.gyroscope, some sensorId, some (axesList.getD (i % 3) Axis.x)⟩
    else if containsSub rest (str "Clk") then
      (List.range count).map fun _ => ⟨ColType.timestamp, none, none⟩
    else
      (List.range count).map fun _ => ⟨ColType.gaitParameter, none, none⟩

/-- The anchored hash-and-whitespace strip of parseSecondHeader. -/
def stripHashWs (l : List Char) : List Char :=
  match l with
  | '#' :: rest => rest.dropWhile isJsSpace
  | _ => l

/-- HeaderParser.parseSecondHeader; throws when splitting the cleaned
line on underscores yields fewer than 2 parts.  The unused column count
parsed from the first part is omitted. -/
def parseSecondHeader (secondLine : List Char) : Except String (List SensorColumn) :=
  let cleanLine := stripHashWs secondLine
  let parts := splitOnChar '_' cleanLine
  if parts.length < 2 then Except.error "Invalid second header format"
  else
    Except.ok ((parts.drop 1).foldl
      (fun cols part =>
        if (trimChars part).isEmpty then cols
        else cols ++ parseColumnDescription part) [])

/-- The data-start scan of analyzeFileStructure: first line from index 2
onward that does not start with a hash, defaulting to 2. -/
def findNonHashAux : List (List Char) → Nat → Option Nat
  | [], _ => none
  | l :: t, i => if !startsWithChars (str "#") l then some i else findNonHashAux t (i + 1)

def findFirstNonHashFrom2 (lines : List (List Char)) : Nat :=
  match findNonHashAux (lines.drop 2) 2 with
  | some i => i
  | none => 2

structure Analysis where
  columns : List SensorColumn
  sampleData : List JSVal
  dataStartLine : Nat
deriving DecidableEq

/-- HeaderParser.analyzeFileStructure.  The first-header metadata
(versions, device id, Date) is omitted: its extraction is wrapped in
try/catch in the source, never throws, and is not read by any claim. -/
def analyzeFileStructureE (content : String) : Except String Analysis :=
  let lines := splitContentLines content
  if lines.length < 3 then Except.error "Invalid file format: insufficient lines"
  else
    match parseSecondHeader (lines.getD 1 []) with
    | Except.error e => Except.error e
    | Except.ok columns =>
      let dataStartLine := findFirstNonHashFrom2 lines
      let sampleData := lineValues (lines.getD dataStartLine [])
      Except.ok ⟨columns, sampleData, dataStartLine⟩

/-! ## Fallback demultiplexer (EnhancedGaitParser.extractMultiIMUData)
and the complete-file entry point (parseCompleteFile) -/

structure MultiSensorData where
  timestamps : List JSVal
  imus : Imus
deriving DecidableEq

/-- Push a zero onto all six arrays of a series: the per-row
fill-with-0 initialization of extractMultiIMUData. -/
def pushZeroAxes (a : Axes3) : Axes3 :=
  ⟨a.x ++ [some 0], a.y ++ [some 0], a.z ++ [some 0]⟩

def pushZeroSeries (s : SensorSeries) : SensorSeries :=
  ⟨pushZeroAxes s.acceleration, pushZeroAxes s.gyroscope⟩

def pushZeros (imus : Imus) : Imus :=
  imus.map fun p => (p.1, pushZeroSeries p.2)

def setAxisAt (a : Axes3) (axis : Axis) (i : Nat) (v : JSVal) : Axes3 :=
  match axis with
  | Axis.x => { a with x := a.x.set i v }
  | Axis.y => { a with y := a.y.set i v }
  | Axis.z => { a with z := a.z.set i v }

def setSeriesAt (s : SensorSeries) (ty : ColType) (axis : Axis) (i : Nat) (v : JSVal) :
    SensorSeries :=
  match ty with
  | ColType.acceleration => { s with acceleration := setAxisAt s.acceleration axis i v }
  | ColType.gyroscope => { s with gyroscope := setAxisAt s.gyroscope axis i v }
  | _ => s

/-- The value-to-column assignment loop of extractMultiIMUData: for j
below the smaller of row width and column count, overwrite position
lineCount of the addressed axis array with the row value. -/
def assignColumns (columns : List SensorColumn) (values : List JSVal) (imus : Imus)
    (lineCount : Nat) : Imus :=
  (List.range (min values.length columns.length)).foldl
    (fun imus j =>
      let col := columns.getD j ⟨ColType.gaitParameter, none, none⟩
      if col.type = ColType.acceleration ∨ col.type = ColType.gyroscope then
        let imuId := str "IMU" ++ (col.sensorId.getD (str "0"))
        let axis := col.axis.getD Axis.x
        let series := (imusFind imus imuId).getD emptySeries
        imusSet imus imuId (setSeriesAt series col.type axis lineCount (values.getD j none))
      else imus)
    imus

/-- The IMU-bucket initialization of extractMultiIMUData: one bucket per
distinct IMU id among the acceleration/gyroscope columns. -/
def initImusFromColumns (columns : List SensorColumn) : Imus :=
  columns.foldl
    (fun imus col =>
      if col.type = ColType.acceleration ∨ col.type = ColType.gyroscope then
        imusEnsure imus (str "IMU" ++ (col.sensorId.getD (str "0")))
      else imus)
    []

/-- The per-line body of the extractMultiIMUData loop. -/
def multiIMUStep (columns : List SensorColumn) (st : List JSVal × Imus × Nat)
    (line : List Char) : List JSVal × Imus × Nat :=
  if startsWithChars (str "#") line || (trimChars line).isEmpty then st
  else
    let values := lineValues line
    let ts1 := if 0 < values.length then st.1 ++ [values.headD none] else st.1
    let imus1 := pushZeros st.2.1
    let imus2 := assignColumns columns values imus1 st.2.2
    (ts1, imus2, st.2.2 + 1)

/-- EnhancedGaitParser.extractMultiIMUData; every internal error is
caught and turned into the empty result.  The selectedSensorIds
argument is unused in the source body and is omitted here. -/
def extractMultiIMUData (content : String) : MultiSensorData :=
  match analyzeFileStructureE content with
  | Except.error _ => ⟨[], []⟩
  | Except.ok analysis =>
    let lines := splitContentLines content
    let folded := (lines.drop analysis.dataStartLine).foldl (multiIMUStep analysis.columns)
      ([], initImusFromColumns analysis.columns, 0)
    ⟨folded.1.take folded.2.2, folded.2.1⟩

/-- The two shapes parseCompleteFile can return. -/
inductive ParseOutcome
  | advanced (r : ParsedFile)
  | fallback (r : MultiSensorData)
deriving DecidableEq

/-- EnhancedGaitParser.parseCompleteFile: try the advanced parser, catch
any error and fall back to extractMultiIMUData (called with an empty
selection in the source).  Total by construction: no error escapes. -/
def parseCompleteFile (content : String) : ParseOutcome :=
  match parseFileContentE content with
  | Except.ok r => ParseOutcome.advanced r
  | Except.error _ => ParseOutcome.fallback (extractMultiIMUData content)

/-! ## Gait metrics (gaitParser.ts, analysisService.ts, gaitCalculations.ts) -/

structure Vec3 where
  x : ℚ
  y : ℚ
  z : ℚ
deriving DecidableEq

structure SensorDataPoint where
  timestamp : ℚ
  acceleration : Vec3
  gyroscope : Vec3
deriving DecidableEq

def defaultPoint : SensorDataPoint := ⟨0, ⟨0, 0, 0⟩, ⟨0, 0, 0⟩⟩

/-- JS array indexing values i on an in-range index. -/
def qget (values : List ℚ) (i : Nat) : ℚ := values.getD i 0

def accelYOf (data : List SensorDataPoint) : List ℚ :=
  data.map fun d => d.acceleration.y

/-- GaitParser.detectPeaks: for i from 1 while i < length - 1, keep i
when values i beats both neighbours and the threshold; the default
threshold of the source is 0.3. -/
def detectPeaks (values : List ℚ) (threshold : ℚ := 3/10) : List Nat :=
  (List.range' 1 (values.length - 2)).filter fun i =>
    decide (qget values i > qget values (i - 1)) &&
    decide (qget values i > qget values (i + 1)) &&
    decide (qget values i > threshold)

/-- AnalysisService.findLocalMaxima: the same 3-point window without a
threshold. -/
def findLocalMaxima (values : List ℚ) : List Nat :=
  (List.range' 1 (values.length - 2)).filter fun i =>
    decide (qget values i > qget values (i - 1)) &&
    decide (qget values i > qget values (i + 1))

structure StepMetrics where
  stepLength : ℚ
  stepTime : ℚ
  stepWidth : ℚ
  cadence : ℚ
  velocity : ℚ
deriving DecidableEq

/-- Timestamp of the last detected peak minus timestamp of the first:
the timeDiff of calculateStepMetrics and the totalTime of
calculateCadence. -/
def peakSpan (data : List SensorDataPoint) (peaks : List Nat) : ℚ :=
  (data.getD (peaks.getLastD 0) defaultPoint).timestamp -
    (data.getD (peaks.headD 0) defaultPoint).timestamp

/-- AnalysisService.calculateStepMetrics. -/
def calculateStepMetrics (data : List SensorDataPoint) : StepMetrics :=
  let accelY := accelYOf data
  let peaks := findLocalMaxima accelY
  if peaks.length < 2 then ⟨7/10, 3/5, 1/10, 100, 6/5⟩
  else
    let timeDiff := peakSpan data peaks
    let avgStepTime := timeDiff / ((peaks.length : ℚ) - 1)
    let stepLength : ℚ := 7/10
    let cadence := 60 / avgStepTime
    let velocity := stepLength * cadence / 60
    ⟨stepLength, avgStepTime, 1/10, cadence, velocity⟩

structure GaitPhase where
  stancePhase : ℚ
  swingPhase : ℚ
  doubleSupport : ℚ
deriving DecidableEq

/-- AnalysisService.calculateGaitPhases: the intervals computed in the
long branch are never used; both branches return the typical-percentage
constants. -/
def calculateGaitPhases (data : List SensorDataPoint) : GaitPhase :=
  let accelY := accelYOf data
  let peaks := findLocalMaxima accelY
  if peaks.length < 2 then ⟨60, 40, 10⟩
  else
    let intervals := (List.range' 1 (peaks.length - 1)).map fun i =>
      ((data.getD (peaks.getD i 0) defaultPoint).timestamp -
        (data.getD (peaks.getD (i - 1) 0) defaultPoint).timestamp) * 1000
    let _ := intervals
    ⟨60, 40, 10⟩

/-- JS Math.round: round half toward positive infinity. -/
def jsRound (q : ℚ) : ℤ := Rat.floor (q + 1/2)

/-- The alternating left/right assignment loop of
calculateSymmetryIndex: element at position i goes left when i is even,
right when i is odd. -/
def altSplitAux : List ℚ → Nat → List ℚ × List ℚ
  | [], _ => ([], [])
  | a :: t, i =>
    let rest := altSplitAux t (i + 1)
    if i % 2 = 0 then (a :: rest.1, rest.2) else (rest.1, a :: rest.2)

/-- AnalysisService.calculateSymmetryIndex. -/
def calculateSymmetryIndex (data : List SensorDataPoint) : ℚ :=
  let accelY := accelYOf data
  let peaks := findLocalMaxima accelY
  if peaks.length < 3 then 100
  else
    let leftRight := altSplitAux (peaks.map (qget accelY)) 0
    let leftSteps := leftRight.1
    let rightSteps := leftRight.2
    let leftAvg := leftSteps.sum / (leftSteps.length : ℚ)
    let rightAvg := rightSteps.sum / (rightSteps.length : ℚ)
    let symmetry := min leftAvg rightAvg / max leftAvg rightAvg * 100
    (jsRound (symmetry * 100) : ℚ) / 100

/-- calculateCadence of gaitCalculations.ts: 0 for fewer than 2 steps or
a non-positive span, otherwise steps per minute. -/
def calculateCadence (steps : List Nat) (data : List SensorDataPoint) : ℚ :=
  if steps.length < 2 then 0
  else
    let totalTime := peakSpan data steps
    if totalTime ≤ 0 then 0
    else
      let stepCount := (steps.length : ℚ) - 1
      stepCount / totalTime * 60

/-! ## Statement vocabulary -/

/-- The timestamp contributed by one line of the parseFileContent data
loop, none when the loop skips the line: the branch structure of
processDataLine restricted to its effect on the timestamps array. -/
def acceptedTimestamp (line : List Char) : Option ℚ :=
  if startsWithChars (str "#") line || (trimChars line).isEmpty then none
  else
    let values := lineValues line
    if values.length < 2 then none
    else
      match values.headD none with
      | none => none
      | some t => some t

/-- All six arrays of a series have length n. -/
def seriesLens (s : SensorSeries) (n : Nat) : Prop :=
  s.acceleration.x.length = n ∧ s.acceleration.y.length = n ∧ s.acceleration.z.length = n ∧
    s.gyroscope.x.length = n ∧ s.gyroscope.y.length = n ∧ s.gyroscope.z.length = n

/-- The axis array a series holds for one sensor type and axis. -/
def seriesAxis (s : SensorSeries) (ty : SensorType) (ax : Axis) : List JSVal :=
  match ty, ax with
  | SensorType.acceleration, Axis.x => s.acceleration.x
  | SensorType.acceleration, Axis.y => s.acceleration.y
  | SensorType.acceleration, Axis.z => s.acceleration.z
  | SensorType.gyroscope, Axis.x => s.gyroscope.x
  | SensorType.gyroscope, Axis.y => s.gyroscope.y
  | SensorType.gyroscope, Axis.z => s.gyroscope.z

/-- Length of the axis array a key's series holds in an imus record;
an absent key reads as the empty series. -/
def axisLen (imus : Imus) (key : List Char) (ty : SensorType) (ax : Axis) : Nat :=
  (seriesAxis ((imusFind imus key).getD emptySeries) ty ax).length

/-- The data-region start rule as the specification words it: the first
line, scanning from line 2 onward and stopping at the end of the data
region, that does not start with a hash, is nonempty, and whose first
whitespace-delimited token parses as a number. -/
def specDataStartLine (lines : List (List Char)) : Option Nat :=
  (List.findIdx? isDataLine ((lines.take (findDataEndLine lines)).drop 2)).map
    (fun i => i + 2)

/-- Elements at even positions and elements at odd positions of a list,
in order: the left/right alternating assignment as the specification
words it. -/
def splitAlternate : List ℚ → List ℚ × List ℚ
  | [] => ([], [])
  | a :: t =>
    let p := splitAlternate t
    (a :: p.2, p.1)

/-- Arithmetic mean of a list of rationals. -/
def meanQ (l : List ℚ) : ℚ := l.sum / (l.length : ℚ)

/-- The peak amplitudes of a sensor series: the vertical acceleration
values at the detected local maxima. -/
def peakAmplitudes (data : List SensorDataPoint) : List ℚ :=
  (findLocalMaxima (accelYOf data)).map (qget (accelYOf data))

/-! ## Concrete inputs used by counterexamples and witnesses -/

/-- A file whose single data row is short: one IMU declared with six
sensor columns, but the row carries a timestamp and only one value. -/
def shortRowContent : String :=
  "#5 header\n# 7 1xClk[s]_3xAccelerationId1[g]_3xGyroscopeId1[d/s]\n0.0 1.0\n"

/-- A file with one complete IMU schema, one full data row before the
sentinel line, and a numeric-looking row after it. -/
def sentinelContent : String :=
  "#5 x\n# 7 1xClk[s]_3xAccelerationId1[g]_3xGyroscopeId1[d/s]\n0.5 1 2 3 4 5 6\n#16 labels\n9.9 1 2 3 4 5 6\n"

/-- A file with two complete data rows around the sentinel-free middle. -/
def fullRowsContent : String :=
  "#5 x\n# 7 1xClk[s]_3xAccelerationId1[g]_3xGyroscopeId1[d/s]\n0.5 1 2 3 4 5 6\n0.6 7 8 9 10 11 12\n"

/-- A file whose line 0 is itself numeric data: lines 1 and 2 are hash
lines and line 3 is numeric again. -/
def earlyDataContent : String := "1 2\n# a\n# b\n3 4"

/-- A file with a well-formed header and no data rows at all. -/
def noDataContent : String := "#5 x\n# 7 1xClk[s]_3xAccelerationId1[g] 13 14033\n#16 labels\n"

/-- A file with only two nonempty lines. -/
def twoLineContent : String := "a\nb"

def mkPt (t y : ℚ) : SensorDataPoint := ⟨t, ⟨0, y, 0⟩, ⟨0, 0, 0⟩⟩

/-- Vertical acceleration 0,2,0,1,0,4,0 at timestamps 0..6: peaks at
indices 1, 3, 5 with amplitudes 2, 1, 4. -/
def symData : List SensorDataPoint :=
  [mkPt 0 0, mkPt 1 2, mkPt 2 0, mkPt 3 1, mkPt 4 0, mkPt 5 4, mkPt 6 0]

/-- Vertical acceleration 0,1,0,1,0 at timestamps 0..4: peaks at
indices 1 and 3. -/
def twoPeakData : List SensorDataPoint :=
  [mkPt 0 0, mkPt 1 1, mkPt 2 0, mkPt 3 1, mkPt 4 0]

/-- The parse result of sentinelContent: only the row before the
sentinel contributes. -/
def sentinelParsed : ParsedFile :=
  ⟨[(str "IMU1", ⟨⟨[some 1], [some 2], [some 3]⟩, ⟨[some 4], [some 5], [some 6]⟩⟩)],
    [1/2], 1, 3, [str "1"], 7⟩

/-- The parse result of noDataContent: an initialized IMU bucket and no
rows. -/
def noDataParsed : ParsedFile :=
  ⟨[(str "IMU1", emptySeries)], [], 0, 2, [str "1"], 7⟩

/-- The parse result of fullRowsContent under the advanced parser: one
IMU, both rows demultiplexed into all six arrays. -/
def fullRowsParsed : ParsedFile :=
  ⟨[(str "IMU1",
      ⟨⟨[some 1, some 7], [some 2, some 8], [some 3, some 9]⟩,
       ⟨[some 4, some 10], [some 5, some 11], [some 6, some 12]⟩⟩)],
    [1/2, 3/5], 2, 4, [str "1"], 7⟩

/-- The series the fallback demultiplexer builds for fullRowsContent:
the simple parser's schema has no timestamp column, so row values shift
one position left. -/
def fullRowsMultiSeries : SensorSeries :=
  ⟨⟨[some (1/2), some (3/5)], [some 1, some 7], [some 2, some 8]⟩,
   ⟨[some 3, some 9], [some 4, some 10], [some 5, some 11]⟩⟩

/-! ## Helper lemmas -/

theorem pairwise_lt_range1 (s n : Nat) : List.Pairwise (· < ·) (List.range' s n) := by
  rw [List.range'_eq_map_range]
  exact (List.pairwise_lt_range n).map _ (fun _ _ h => by omega)

/-! ## Claim theorems -/

/-- Claim C10 (confirmed): for every input sensor series, regardless of
length, content, or number of detected peaks, calculateGaitPhases
returns exactly stance 60, swing 40, double support 10; the peak
intervals computed internally never influence the result. -/
theorem gait_phases_constant :
    ∀ data : List SensorDataPoint,
      calculateGaitPhases data = ⟨60, 40, 10⟩ := by
  intro data
  by_cases h : (findLocalMaxima (accelYOf data)).length < 2 <;>
    simp [calculateGaitPhases, h]

/-- Claim C4 (confirmed): detectPeaks marks index i if and only if the
value at i beats both neighbours and the threshold with 1 ≤ i and
i + 1 < length; the returned indices are strictly ascending; and on the
series 0, 0.1, 0.5, 0.1, 0, 0.6, 0.1, 0 with the default threshold 0.3
it returns exactly the indices 2 and 5. -/
theorem step_detection_rule :
    (∀ (v : List ℚ) (th : ℚ) (i : ℕ),
        i ∈ detectPeaks v th ↔
          1 ≤ i ∧ i + 1 < v.length ∧
            qget v i > qget v (i - 1) ∧ qget v i > qget v (i + 1) ∧ qget v i > th) ∧
    (∀ (v : List ℚ) (th : ℚ), List.Pairwise (· < ·) (detectPeaks v th)) ∧
    detectPeaks [0, 1/10, 1/2, 1/10, 0, 3/5, 1/10, 0] = [2, 5] := by
  refine ⟨?_, ?_, by with_unfolding_all decide⟩
  · intro v th i
    simp only [detectPeaks, List.mem_filter, List.mem_range'_1, Bool.and_eq_true,
      decide_eq_true_eq]
    constructor
    · rintro ⟨⟨h1, h2⟩, ⟨ha, hb⟩, hc⟩
      exact ⟨h1, by omega, ha, hb, hc⟩
    · rintro ⟨h1, h2, ha, hb, hc⟩
      exact ⟨⟨h1, by omega⟩, ⟨ha, hb⟩, hc⟩
  · intro v th
    exact List.Pairwise.sublist (List.filter_sublist _) (pairwise_lt_range1 1 (v.length - 2))

theorem mem_addSensorId_self (ids : List (List Char)) (id : List Char) :
    id ∈ addSensorId ids id := by
  unfold addSensorId
  split
  · assumption
  · simp

/-- Claim C3 (confirmed): parseColumnHeader on a header line with the
descriptor 3xAccelerationId2 in brackets-g yields exactly 3 descriptors,
acceleration, sensor id 2, axes x then y then z; in general a matched
sensor descriptor with count N appends exactly min N 3 descriptors whose
axes are the first min N 3 of x, y, z in order, all sharing the matched
type and id, and registers the id into sensorIds. -/
theorem schema_expansion :
    parseColumnHeader (str "# 7 1xClk[s]_3xAccelerationId2[g] 13 14033") =
      ⟨7, [⟨SensorType.acceleration, str "2", Axis.x⟩,
           ⟨SensorType.acceleration, str "2", Axis.y⟩,
           ⟨SensorType.acceleration, str "2", Axis.z⟩], [str "2"], false, false, 0⟩ ∧
    (∀ (st : HeaderState) (desc : List Char) (count : Nat) (ty : SensorType)
        (idc : List Char),
      containsSub desc (str "Clk[s]") = false →
      containsSub desc (str "ADCValueId") = false →
      matchSensor desc = some (count, ty, idc) →
      (processDescriptor st desc).sensorDefinitions =
          st.sensorDefinitions ++ expandSensorDefs count ty idc ∧
        idc ∈ (processDescriptor st desc).sensorIds) ∧
    (∀ (count : Nat) (ty : SensorType) (idc : List Char),
      (expandSensorDefs count ty idc).length = min count 3 ∧
      (expandSensorDefs count ty idc).map SensorDef.axis = axesList.take (min count 3) ∧
      (3 ≤ count → (expandSensorDefs count ty idc).map SensorDef.axis = axesList) ∧
      ∀ d ∈ expandSensorDefs count ty idc, d.type = ty ∧ d.sensorId = idc) := by
  refine ⟨by with_unfolding_all decide, ?_, ?_⟩
  · intro st desc count ty idc h1 h2 h3
    have hne : desc.isEmpty = false := by
      cases desc
      · simp [matchSensor] at h3
      · rfl
    constructor
    · simp [processDescriptor, hne, h1, h2, h3]
    · simp [processDescriptor, hne, h1, h2, h3, mem_addSensorId_self]
  · intro count ty idc
    have hm : min count 3 = 0 ∨ min count 3 = 1 ∨ min count 3 = 2 ∨ min count 3 = 3 := by
      omega
    refine ⟨by simp [expandSensorDefs], ?_, ?_, ?_⟩
    · unfold expandSensorDefs
      rcases hm with h | h | h | h <;> rw [h] <;> rfl
    · intro h3
      have : min count 3 = 3 := by omega
      unfold expandSensorDefs
      rw [this]
      rfl
    · intro d hd
      unfold expandSensorDefs at hd
      simp only [List.mem_map, List.mem_range] at hd
      obtain ⟨j, _, rfl⟩ := hd
      exact ⟨rfl, rfl⟩

/-- Witness for claim C3: the general clause applied to the descriptor
3xAccelerationId2 in brackets-g itself, starting from the empty header
state. -/
theorem schema_expansion_witness :
    (processDescriptor ⟨[], [], false, false, 0⟩ (str "3xAccelerationId2[g]")).sensorDefinitions =
        [] ++ expandSensorDefs 3 SensorType.acceleration (str "2") ∧
      str "2" ∈ (processDescriptor ⟨[], [], false, false, 0⟩
        (str "3xAccelerationId2[g]")).sensorIds :=
  schema_expansion.2.1 ⟨[], [], false, false, 0⟩ (str "3xAccelerationId2[g]") 3
    SensorType.acceleration (str "2") (by decide) (by decide) (by decide)

/-- Claim C5 counterexample: on an empty series no peaks are detected,
and calculateStepMetrics returns the default cadence 100, not the 0 the
claim states for fewer than 2 peaks. -/
theorem cadence_counterexample :
    (calculateStepMetrics []).cadence = 100 ∧ (100 : ℚ) ≠ 0 := by
  with_unfolding_all decide

/-- Claim C5 (corrected): with at least 2 detected peaks and a positive
span, the cadence of calculateStepMetrics is steps-minus-one over the
span times 60; with fewer than 2 peaks it returns the default metrics
with cadence 100 (not 0), and it has no non-positive-span guard.  The
standalone calculateCadence utility implements the 0-returning variant
the claim describes, for both degenerate cases. -/
theorem cadence_rule :
    (∀ data : List SensorDataPoint,
      (findLocalMaxima (accelYOf data)).length < 2 →
        calculateStepMetrics data = ⟨7/10, 3/5, 1/10, 100, 6/5⟩) ∧
    (∀ data : List SensorDataPoint,
      2 ≤ (findLocalMaxima (accelYOf data)).length →
      0 < peakSpan data (findLocalMaxima (accelYOf data)) →
        (calculateStepMetrics data).cadence =
          (((findLocalMaxima (accelYOf data)).length : ℚ) - 1) /
            peakSpan data (findLocalMaxima (accelYOf data)) * 60) ∧
    (∀ (steps : List Nat) (data : List SensorDataPoint),
      (steps.length < 2 ∨ peakSpan data steps ≤ 0 → calculateCadence steps data = 0) ∧
      (2 ≤ steps.length → 0 < peakSpan data steps →
        calculateCadence steps data = ((steps.length : ℚ) - 1) / peakSpan data steps * 60)) := by
  refine ⟨?_, ?_, ?_⟩
  · intro data h
    simp [calculateStepMetrics, h]
  · intro data h2 hspan
    have hlt : ¬ (findLocalMaxima (accelYOf data)).length < 2 := by omega
    have hn : (((findLocalMaxima (accelYOf data)).length : ℚ) - 1) ≠ 0 := by
      have : (2 : ℚ) ≤ ((findLocalMaxima (accelYOf data)).length : ℚ) := by
        exact_mod_cast h2
      linarith
    have hs : peakSpan data (findLocalMaxima (accelYOf data)) ≠ 0 := ne_of_gt hspan
    simp only [calculateStepMetrics, hlt, if_false]
    field_simp
    ring
  · intro steps data
    constructor
    · rintro (h | h)
      · simp [calculateCadence, h]
      · rcases Nat.lt_or_ge steps.length 2 with h2 | h2
        · simp [calculateCadence, h2]
        · have hlt : ¬ steps.length < 2 := by omega
          simp [calculateCadence, hlt, h]
    · intro h2 hspan
      have hlt : ¬ steps.length < 2 := by omega
      have hle : ¬ peakSpan data steps ≤ 0 := by linarith
      simp [calculateCadence, hlt, hle]

/-- Witness for claim C5: a series with peaks at indices 1 and 3,
timestamps 1 and 3, so span 2 and cadence 30 steps per minute. -/
theorem cadence_rule_witness :
    (calculateStepMetrics twoPeakData).cadence =
      (((findLocalMaxima (accelYOf twoPeakData)).length : ℚ) - 1) /
        peakSpan twoPeakData (findLocalMaxima (accelYOf twoPeakData)) * 60 :=
  cadence_rule.2.1 twoPeakData (by with_unfolding_all decide)
    (by with_unfolding_all decide)

theorem altSplitAux_parity (l : List ℚ) :
    ∀ i, altSplitAux l i =
      if i % 2 = 0 then splitAlternate l
      else ((splitAlternate l).2, (splitAlternate l).1) := by
  induction l with
  | nil => intro i; by_cases hi : i % 2 = 0 <;> simp [altSplitAux, splitAlternate, hi]
  | cons a t ih =>
    intro i
    by_cases hi : i % 2 = 0
    · have h2 : ¬ (i + 1) % 2 = 0 := by omega
      simp [altSplitAux, splitAlternate, hi, ih (i + 1), h2]
    · have h2 : (i + 1) % 2 = 0 := by omega
      simp [altSplitAux, splitAlternate, hi, ih (i + 1), h2]

theorem altSplitAux_zero (l : List ℚ) : altSplitAux l 0 = splitAlternate l := by
  simpa using altSplitAux_parity l 0

/-- Claim C6 counterexample: on the series with peak amplitudes 2, 1, 4
the symmetry index is 33.33 — computed from mean peak amplitudes and
rounded to 2 decimals — which is neither the nearest-integer 33 of the
amplitude reading nor the 0 of the claimed mean-inter-step-time reading. -/
theorem jsRound_eq_intFloor (q : ℚ) : jsRound q = ⌊q + 1/2⌋ := rfl

theorem symmetry_counterexample :
    calculateSymmetryIndex symData = 3333/100 ∧
      (3333/100 : ℚ) ≠ 33 ∧ (3333/100 : ℚ) ≠ 0 := by
  refine ⟨?_, by norm_num, by norm_num⟩
  have hpeaks : findLocalMaxima (accelYOf symData) = [1, 3, 5] := by
    with_unfolding_all decide
  have hamps : List.map (qget (accelYOf symData)) [1, 3, 5] = [2, 1, 4] := by
    with_unfolding_all decide
  have hsplit : altSplitAux [2, 1, 4] 0 = ([2, 4], [1]) := by
    norm_num [altSplitAux]
  simp only [calculateSymmetryIndex, hpeaks, hamps, hsplit]
  norm_num [jsRound_eq_intFloor]

/-- Claim C6 (corrected): detected peaks are assigned alternately to the
left (positions 0, 2, 4, …) and right (1, 3, 5, …) sides, but per side
the mean peak amplitude — not the mean inter-step time — is used; the
index is min over max of the two means times 100, rounded to 2 decimal
places — not to the nearest integer; and the neutral 100 is returned
whenever fewer than 3 peaks are detected, which covers every input with
zero or one detected peaks. -/
theorem symmetry_rule :
    (∀ data : List SensorDataPoint,
      (findLocalMaxima (accelYOf data)).length < 3 → calculateSymmetryIndex data = 100) ∧
    (∀ data : List SensorDataPoint,
      3 ≤ (findLocalMaxima (accelYOf data)).length →
        calculateSymmetryIndex data =
          (jsRound (min (meanQ (splitAlternate (peakAmplitudes data)).1)
                (meanQ (splitAlternate (peakAmplitudes data)).2) /
              max (meanQ (splitAlternate (peakAmplitudes data)).1)
                (meanQ (splitAlternate (peakAmplitudes data)).2) * 100 * 100) : ℚ) / 100) := by
  constructor
  · intro data h
    simp [calculateSymmetryIndex, h]
  · intro data h3
    have hlt : ¬ (findLocalMaxima (accelYOf data)).length < 3 := by omega
    simp only [calculateSymmetryIndex, hlt, if_false, altSplitAux_zero, meanQ,
      peakAmplitudes]

/-- Witness for claim C6: the empty series has no peaks, so the
symmetry index is exactly 100. -/
theorem symmetry_rule_witness :
    calculateSymmetryIndex [] = 100 :=
  symmetry_rule.1 [] (by decide)

theorem processDataLine_fst_eq (defs : List SensorDef) (acc : List ℚ × Imus)
    (line : List Char) :
    (processDataLine defs acc line).1 = acc.1 ++ (acceptedTimestamp line).toList := by
  unfold processDataLine acceptedTimestamp
  by_cases h1 : (startsWithChars (str "#") line || (trimChars line).isEmpty) = true
  · simp [h1]
  · by_cases h2 : (lineValues line).length < 2
    · simp [h1, h2]
    · cases hv : (lineValues line).headD none with
      | none =>
        rw [List.headD_eq_head?] at hv
        simp [h1, h2, hv]
      | some t0 =>
        rw [List.headD_eq_head?] at hv
        simp [h1, h2, hv]

theorem processDataLine_eq_of_none (defs : List SensorDef) (acc : List ℚ × Imus)
    (line : List Char) (h : acceptedTimestamp line = none) :
    processDataLine defs acc line = acc := by
  unfold processDataLine
  unfold acceptedTimestamp at h
  by_cases h1 : (startsWithChars (str "#") line || (trimChars line).isEmpty) = true
  · simp [h1]
  · by_cases h2 : (lineValues line).length < 2
    · simp [h1, h2]
    · cases hv : (lineValues line).headD none with
      | none =>
        rw [List.headD_eq_head?] at hv
        simp [h1, h2, hv]
      | some t0 =>
        rw [List.headD_eq_head?] at hv
        simp [h1, h2, hv] at h

theorem foldl_processDataLine_fst (defs : List SensorDef) :
    ∀ (region : List (List Char)) (ts : List ℚ) (imus : Imus),
      (region.foldl (processDataLine defs) (ts, imus)).1 =
        ts ++ region.filterMap acceptedTimestamp := by
  intro region
  induction region with
  | nil => intro ts imus; simp
  | cons l t ih =>
    intro ts imus
    rw [List.foldl_cons, List.filterMap_cons]
    have hsnd : processDataLine defs (ts, imus) l =
        ((processDataLine defs (ts, imus) l).1, (processDataLine defs (ts, imus) l).2) := rfl
    rw [hsnd, ih, processDataLine_fst_eq]
    cases h : acceptedTimestamp l <;> simp

theorem foldl_processDataLine_of_all_none (defs : List SensorDef) :
    ∀ (region : List (List Char)) (acc : List ℚ × Imus),
      (∀ l ∈ region, acceptedTimestamp l = none) →
        region.foldl (processDataLine defs) acc = acc := by
  intro region
  induction region with
  | nil => intro acc _; rfl
  | cons l t ih =>
    intro acc h
    rw [List.foldl_cons, processDataLine_eq_of_none defs acc l (h l (by simp))]
    exact ih acc fun x hx => h x (by simp [hx])

theorem findDataEndLine_eq (lines : List (List Char)) :
    findDataEndLine lines =
      (List.findIdx? (fun l => startsWithChars (str "#16") (trimChars l)) lines).getD
        lines.length := by
  induction lines with
  | nil => rfl
  | cons l t ih =>
    simp only [findDataEndLine, List.findIdx?_cons]
    by_cases h : startsWithChars (str "#16") (trimChars l) = true
    · simp [h]
    · simp only [h, Bool.false_eq_true, if_false, ih]
      cases ho : List.findIdx? (fun l => startsWithChars (str "#16") (trimChars l)) t <;>
        simp [ho]

theorem parseFileContentE_timestamps (content : String) (r : ParsedFile)
    (h : parseFileContentE content = Except.ok r) :
    r.timestamps = (dataRegion (splitContentLines content)).filterMap acceptedTimestamp := by
  simp only [parseFileContentE] at h
  by_cases hlen : (splitContentLines content).length < 3
  · rw [if_pos hlen] at h
    cases h
  · rw [if_neg hlen] at h
    injection h with h
    subst h
    simp [foldl_processDataLine_fst]

/-- Claim C2 (confirmed): the data end is the index of the first line
whose trimmed text starts with the sentinel (the line count when there
is none, consuming to end of file); the output timestamps are exactly
the accepted first values of the lines of the demuxed region; and that
region is a suffix of the lines strictly before the data end, so no line
at or after the first sentinel line ever contributes. -/
theorem sentinel_boundary :
    (∀ lines : List (List Char),
      findDataEndLine lines =
        (List.findIdx? (fun l => startsWithChars (str "#16") (trimChars l)) lines).getD
          lines.length) ∧
    (∀ (content : String) (r : ParsedFile),
      parseFileContentE content = Except.ok r →
        r.timestamps = (dataRegion (splitContentLines content)).filterMap acceptedTimestamp) ∧
    (∀ lines : List (List Char),
      dataRegion lines =
        (lines.take (findDataEndLine lines)).drop
          ((findDataStartLine lines).getD (findDataEndLine lines))) := by
  refine ⟨findDataEndLine_eq, parseFileContentE_timestamps, ?_⟩
  · intro lines
    unfold dataRegion
    cases hs : findDataStartLine lines with
    | none =>
      have : (lines.take (findDataEndLine lines)).length ≤ findDataEndLine lines := by
        simp [List.length_take]
      simp [List.drop_eq_nil_of_le this]
    | some s =>
      by_cases he : findDataEndLine lines ≤ s
      · have : (lines.take (findDataEndLine lines)).length ≤ s := by
          simp only [List.length_take]
          omega
        simp [he, List.drop_eq_nil_of_le this]
      · simp [he]

/-- Witness for claim C2: a file with one full data row before the
sentinel and a numeric-looking row after it; only the first row's
timestamp 0.5 appears. -/
theorem sentinel_boundary_witness :
    parseFileContentE sentinelContent = Except.ok sentinelParsed ∧
      sentinelParsed.timestamps =
        (dataRegion (splitContentLines sentinelContent)).filterMap acceptedTimestamp ∧
      sentinelParsed.timestamps = [1/2] := by
  have h : parseFileContentE sentinelContent = Except.ok sentinelParsed := by
    with_unfolding_all decide
  exact ⟨h, sentinel_boundary.2.1 sentinelContent sentinelParsed h, rfl⟩

theorem findDataStartLineAux_eq :
    ∀ (lines : List (List Char)) (i : Nat),
      findDataStartLineAux lines i =
        (List.findIdx? isDataLine (lines.take (findDataEndLine lines))).map
          (fun j => j + i) := by
  intro lines
  induction lines with
  | nil => intro i; rfl
  | cons l t ih =>
    intro i
    by_cases h16 : startsWithChars (str "#16") (trimChars l) = true
    · simp [findDataStartLineAux, findDataEndLine, h16]
    · by_cases hd : isDataLine l = true
      · simp [findDataStartLineAux, findDataEndLine, h16, hd, List.findIdx?_cons]
      · simp only [findDataStartLineAux, findDataEndLine, h16, hd, Bool.false_eq_true,
          if_false, ih (i + 1), List.take_succ_cons, List.findIdx?_cons]
        cases ho : List.findIdx? isDataLine (t.take (findDataEndLine t)) with
        | none => simp [ho]
        | some j => simp [ho]; omega

/-- Claim C7 counterexample: on a file whose line 0 is itself numeric
data, the source starts the data region at line 0, not at the first
matching line from line 2 onward as the claim states, and line 0's
timestamp 1 appears in the output. -/
theorem data_start_counterexample :
    findDataStartLine (splitContentLines earlyDataContent) = some 0 ∧
      specDataStartLine (splitContentLines earlyDataContent) = some 3 ∧
      (some 0 : Option Nat) ≠ some 3 ∧
      (parseFileContentE earlyDataContent).toOption.map ParsedFile.timestamps =
        some [1, 3] := by
  refine ⟨by with_unfolding_all decide, by with_unfolding_all decide, by decide, ?_⟩
  with_unfolding_all decide

/-- Claim C7 (corrected): the data-region start is the index of the
first line — scanning from line 0, not from line 2 — strictly before the
data end, that does not start with a hash, is nonempty, and whose first
whitespace-delimited token parses as a number; when no such line exists
the parse still succeeds (for at least 3 nonempty lines) and returns an
empty timestamps array rather than an error. -/
theorem data_start_rule :
    (∀ lines : List (List Char),
      findDataStartLine lines =
        List.findIdx? isDataLine (lines.take (findDataEndLine lines))) ∧
    (∀ (content : String) (r : ParsedFile),
      parseFileContentE content = Except.ok r →
        findDataStartLine (splitContentLines content) = none →
          r.timestamps = []) ∧
    (∀ content : String,
      3 ≤ (splitContentLines content).length →
        ∃ r, parseFileContentE content = Except.ok r) := by
  refine ⟨?_, ?_, ?_⟩
  · intro lines
    rw [findDataStartLine, findDataStartLineAux_eq lines 0]
    cases ho : List.findIdx? isDataLine (lines.take (findDataEndLine lines)) <;> simp [ho]
  · intro content r h hnone
    rw [parseFileContentE_timestamps content r h]
    unfold dataRegion
    rw [hnone]
    rfl
  · intro content h3
    have hlt : ¬ (splitContentLines content).length < 3 := by omega
    simp only [parseFileContentE, hlt, if_false]
    exact ⟨_, rfl⟩

/-- Witness for claim C7: a file with a well-formed header and no data
line before the sentinel parses to an empty timestamps array. -/
theorem data_start_rule_witness :
    parseFileContentE noDataContent = Except.ok noDataParsed ∧
      noDataParsed.timestamps = [] := by
  have h : parseFileContentE noDataContent = Except.ok noDataParsed := by
    with_unfolding_all decide
  exact ⟨h, data_start_rule.2.1 noDataContent noDataParsed h (by with_unfolding_all decide)⟩

theorem parseFileContentE_insufficient (content : String)
    (h : (splitContentLines content).length < 3) :
    parseFileContentE content = Except.error "Invalid file format: insufficient lines" := by
  simp only [parseFileContentE, h, if_true]

/-- Claim C8 (confirmed): parseFileContent throws exactly when the file
has fewer than 3 nonempty lines, always with the message about
insufficient lines — the only hard-stop in this parsing path — and a
parse that succeeds with zero accepted data rows leaves every IMU's
per-axis arrays empty instead of raising. -/
theorem structural_failure :
    (∀ content : String,
      ((splitContentLines content).length < 3 →
        parseFileContentE content = Except.error "Invalid file format: insufficient lines") ∧
      (∀ e, parseFileContentE content = Except.error e →
        (splitContentLines content).length < 3 ∧
          e = "Invalid file format: insufficient lines")) ∧
    (∀ (content : String) (r : ParsedFile),
      parseFileContentE content = Except.ok r → r.timestamps = [] →
        ∀ p ∈ r.imus, p.2 = emptySeries) := by
  constructor
  · intro content
    constructor
    · exact parseFileContentE_insufficient content
    · intro e h
      by_cases hlen : (splitContentLines content).length < 3
      · simp only [parseFileContentE, hlen, if_true] at h
        injection h with h
        exact ⟨hlen, h.symm⟩
      · simp only [parseFileContentE, hlen, if_false] at h
        cases h
  · intro content r h hts p hp
    simp only [parseFileContentE] at h
    by_cases hlen : (splitContentLines content).length < 3
    · rw [if_pos hlen] at h
      cases h
    · rw [if_neg hlen] at h
      injection h with h
      subst h
      simp only [foldl_processDataLine_fst] at hts
      simp only [List.nil_append] at hts
      rw [List.filterMap_eq_nil_iff] at hts
      have hfold := foldl_processDataLine_of_all_none
        (parseColumnHeader ((splitContentLines content).getD 1 [])).sensorDefinitions
        (dataRegion (splitContentLines content))
        ([], (parseColumnHeader ((splitContentLines content).getD 1 [])).sensorIds.map
          fun id => (str "IMU" ++ id, emptySeries))
        hts
      simp only [hfold] at hp
      simp only [List.mem_map] at hp
      obtain ⟨id, _, rfl⟩ := hp
      rfl

/-- Witness for claim C8: a 2-line file fails with the insufficient
lines error, and the zero-data-row file's only IMU bucket is empty. -/
theorem structural_failure_witness :
    parseFileContentE twoLineContent = Except.error "Invalid file format: insufficient lines" ∧
      (str "IMU1", emptySeries).2 = emptySeries := by
  refine ⟨(structural_failure.1 twoLineContent).1 (by decide), ?_⟩
  have h : parseFileContentE noDataContent = Except.ok noDataParsed := by
    with_unfolding_all decide
  exact structural_failure.2 noDataContent noDataParsed h rfl (str "IMU1", emptySeries)
    (by simp [noDataParsed])

/-- Claim C9 (confirmed): the complete-file entry point never surfaces
an error: whenever the advanced parser throws, the call falls back to
extractMultiIMUData; whenever the file analysis inside the fallback
throws, the fallback returns the empty result; in particular every file
with fewer than 3 nonempty lines — the structural failure — yields the
empty fallback result instead of an exception. -/
theorem total_entry_point :
    (∀ (content : String) (e : String),
      parseFileContentE content = Except.error e →
        parseCompleteFile content = ParseOutcome.fallback (extractMultiIMUData content)) ∧
    (∀ (content : String) (e : String),
      analyzeFileStructureE content = Except.error e →
        extractMultiIMUData content = ⟨[], []⟩) ∧
    (∀ content : String,
      (splitContentLines content).length < 3 →
        parseCompleteFile content = ParseOutcome.fallback ⟨[], []⟩) := by
  refine ⟨?_, ?_, ?_⟩
  · intro content e h
    simp only [parseCompleteFile, h]
  · intro content e h
    simp only [extractMultiIMUData, h]
  · intro content hlen
    have he : parseFileContentE content =
        Except.error "Invalid file format: insufficient lines" :=
      parseFileContentE_insufficient content hlen
    have ha : analyzeFileStructureE content =
        Except.error "Invalid file format: insufficient lines" := by
      simp only [analyzeFileStructureE, hlen, if_true]
    simp only [parseCompleteFile, he, extractMultiIMUData, ha]

/-- Witness for claim C9: the 2-line file is absorbed by both fallbacks
and yields the empty result. -/
theorem total_entry_point_witness :
    parseCompleteFile twoLineContent = ParseOutcome.fallback ⟨[], []⟩ :=
  total_entry_point.2.2 twoLineContent (by decide)

/-- Claim C1 counterexample: a declared six-column IMU whose only data
row carries a timestamp and a single value; the row is accepted (2
values), acceleration x receives the value, but the remaining five
arrays stay empty while timestamps has one entry — the six arrays are
not pushed in lock-step and no 0 is filled in. -/
theorem parity_counterexample :
    parseFileContentE shortRowContent =
      Except.ok ⟨[(str "IMU1", ⟨⟨[some 1], [], []⟩, ⟨[], [], []⟩⟩)], [0], 1, 3, [str "1"], 7⟩ ∧
      ¬ seriesLens ⟨⟨[some 1], [], []⟩, ⟨[], [], []⟩⟩ 1 := by
  constructor
  · with_unfolding_all decide
  · intro h
    simp [seriesLens] at h

theorem imusFind_of_mem_keys {imus : Imus} {key : List Char}
    (h : key ∈ imus.map Prod.fst) : ∃ s, imusFind imus key = some s := by
  induction imus with
  | nil => simp at h
  | cons p t ih =>
    by_cases hk : p.1 = key
    · exact ⟨p.2, by simp [imusFind, hk]⟩
    · simp only [List.map_cons, List.mem_cons] at h
      rcases h with h | h
      · exact absurd h.symm hk
      · obtain ⟨s, hs⟩ := ih h
        exact ⟨s, by simp [imusFind, hk, hs]⟩

theorem mem_of_imusFind {imus : Imus} {key : List Char} {s : SensorSeries}
    (h : imusFind imus key = some s) : (key, s) ∈ imus := by
  induction imus with
  | nil => simp [imusFind] at h
  | cons p t ih =>
    by_cases hk : p.1 = key
    · simp only [imusFind, hk, if_true] at h
      injection h with h
      subst h
      rw [← hk]
      simp
    · simp only [imusFind, hk, if_false] at h
      simp [ih h]

theorem imusFind_of_mem_nodup {imus : Imus} {k : List Char} {s : SensorSeries}
    (hn : (imus.map Prod.fst).Nodup) (h : (k, s) ∈ imus) :
    imusFind imus k = some s := by
  induction imus with
  | nil => simp at h
  | cons p t ih =>
    simp only [List.map_cons, List.nodup_cons] at hn
    rcases List.mem_cons.mp h with h | h
    · subst h
      simp [imusFind]
    · have hk : p.1 ≠ k := by
        intro hc
        exact hn.1 (hc ▸ List.mem_map_of_mem Prod.fst h)
      simp [imusFind, hk, ih hn.2 h]

theorem imusFind_imusSet_self {imus : Imus} {key : List Char} {s : SensorSeries}
    (h : imusFind imus key = some s) (v : SensorSeries) :
    imusFind (imusSet imus key v) key = some v := by
  induction imus with
  | nil => simp [imusFind] at h
  | cons p t ih =>
    by_cases hk : p.1 = key
    · simp [imusSet, imusFind, hk]
    · simp only [imusFind, hk, if_false] at h
      simp [imusSet, imusFind, hk, ih h]

theorem imusFind_imusSet_ne {imus : Imus} {key k' : List Char} (hne : k' ≠ key)
    (v : SensorSeries) :
    imusFind (imusSet imus key v) k' = imusFind imus k' := by
  induction imus with
  | nil => rfl
  | cons p t ih =>
    by_cases hk : p.1 = key
    · have : p.1 ≠ k' := by rw [hk]; exact fun hc => hne hc.symm
      simp [imusSet, imusFind, hk, this, Ne.symm hne]
    · by_cases hk' : p.1 = k'
      · simp [imusSet, imusFind, hk, hk', hne, Ne.symm hne]
      · simp [imusSet, imusFind, hk, hk', hne, Ne.symm hne, ih]

theorem imusSet_keys (imus : Imus) (key : List Char) (v : SensorSeries) :
    (imusSet imus key v).map Prod.fst = imus.map Prod.fst := by
  induction imus with
  | nil => rfl
  | cons p t ih =>
    by_cases hk : p.1 = key
    · simp [imusSet, hk]
    · simp [imusSet, hk, ih]

theorem imusEnsure_of_found {imus : Imus} {key : List Char} {s : SensorSeries}
    (h : imusFind imus key = some s) : imusEnsure imus key = imus := by
  simp [imusEnsure, h]

theorem imusSet_of_find_none {imus : Imus} {key : List Char}
    (h : imusFind imus key = none) (v : SensorSeries) :
    imusSet imus key v = imus := by
  induction imus with
  | nil => rfl
  | cons p t ih =>
    by_cases hk : p.1 = key
    · simp [imusFind, hk] at h
    · simp only [imusFind, hk, if_false] at h
      simp [imusSet, hk, ih h]

theorem mem_imusSet_forall {P : SensorSeries → Prop} {imus : Imus} {key : List Char}
    {v : SensorSeries} (h : ∀ p ∈ imus, P p.2) (hv : P v) :
    ∀ p ∈ imusSet imus key v, P p.2 := by
  induction imus with
  | nil => simp [imusSet]
  | cons q t ih =>
    intro p hp
    by_cases hk : q.1 = key
    · simp only [imusSet, hk, if_true] at hp
      rcases List.mem_cons.mp hp with hp | hp
      · subst hp; exact hv
      · exact h p (List.mem_cons_of_mem _ hp)
    · simp only [imusSet, hk, if_false] at hp
      rcases List.mem_cons.mp hp with hp | hp
      · subst hp; exact h q (by simp)
      · exact ih (fun x hx => h x (List.mem_cons_of_mem _ hx)) p hp

theorem mem_imusEnsure_forall {P : SensorSeries → Prop} {imus : Imus} {key : List Char}
    (h : ∀ p ∈ imus, P p.2) (he : P emptySeries) :
    ∀ p ∈ imusEnsure imus key, P p.2 := by
  intro p hp
  unfold imusEnsure at hp
  cases hf : imusFind imus key with
  | some s => rw [hf] at hp; exact h p hp
  | none =>
    rw [hf] at hp
    rcases List.mem_append.mp hp with hp | hp
    · exact h p hp
    · simp at hp
      subst hp
      exact he

theorem seriesAxis_pushSeries (s : SensorSeries) (ty' : SensorType) (ax' : Axis)
    (v : JSVal) (ty : SensorType) (ax : Axis) :
    seriesAxis (pushSeries s ty' ax' v) ty ax =
      if ty' = ty ∧ ax' = ax then seriesAxis s ty ax ++ [v] else seriesAxis s ty ax := by
  cases ty' <;> cases ty <;> cases ax' <;> cases ax <;>
    simp [pushSeries, pushAxis, seriesAxis]

theorem seriesLens_iff (s : SensorSeries) (n : Nat) :
    seriesLens s n ↔ ∀ ty ax, (seriesAxis s ty ax).length = n := by
  constructor
  · rintro ⟨h1, h2, h3, h4, h5, h6⟩ ty ax
    cases ty <;> cases ax <;> assumption
  · intro h
    exact ⟨h SensorType.acceleration Axis.x, h SensorType.acceleration Axis.y,
      h SensorType.acceleration Axis.z, h SensorType.gyroscope Axis.x,
      h SensorType.gyroscope Axis.y, h SensorType.gyroscope Axis.z⟩

theorem seriesAxis_emptySeries (ty : SensorType) (ax : Axis) :
    seriesAxis emptySeries ty ax = [] := by
  cases ty <;> cases ax <;> rfl

theorem processRowDefs_axisLen :
    ∀ (ds : List SensorDef) (vi : Nat) (values : List JSVal) (imus : Imus),
      (∀ d ∈ ds, (str "IMU" ++ d.sensorId) ∈ imus.map Prod.fst) →
      vi + ds.length ≤ values.length →
        (processRowDefs ds vi values imus).map Prod.fst = imus.map Prod.fst ∧
        ∀ key ty ax,
          axisLen (processRowDefs ds vi values imus) key ty ax =
            axisLen imus key ty ax +
              ds.countP (fun d =>
                decide ((str "IMU" ++ d.sensorId) = key ∧ d.type = ty ∧ d.axis = ax)) := by
  intro ds
  induction ds with
  | nil =>
    intro vi values imus _ _
    simp [processRowDefs]
  | cons d ds ih =>
    intro vi values imus hcover hlen
    have hvi : vi < values.length := by
      simp only [List.length_cons] at hlen
      omega
    obtain ⟨s0, hs0⟩ := imusFind_of_mem_keys (hcover d (by simp))
    have hstep : processRowDefs (d :: ds) vi values imus =
        processRowDefs ds (vi + 1) values
          (imusSet imus (str "IMU" ++ d.sensorId)
            (pushSeries s0 d.type d.axis (values.get ⟨vi, hvi⟩))) := by
      simp only [processRowDefs, hvi, dif_pos, imusEnsure_of_found hs0, hs0,
        Option.getD_some]
    have hkeys2 : (imusSet imus (str "IMU" ++ d.sensorId)
        (pushSeries s0 d.type d.axis (values.get ⟨vi, hvi⟩))).map Prod.fst =
        imus.map Prod.fst := imusSet_keys _ _ _
    have hcover2 : ∀ e ∈ ds, (str "IMU" ++ e.sensorId) ∈
        (imusSet imus (str "IMU" ++ d.sensorId)
          (pushSeries s0 d.type d.axis (values.get ⟨vi, hvi⟩))).map Prod.fst := by
      intro e he
      rw [hkeys2]
      exact hcover e (List.mem_cons_of_mem _ he)
    have hlen2 : vi + 1 + ds.length ≤ values.length := by
      simp only [List.length_cons] at hlen
      omega
    obtain ⟨ihk, ihl⟩ := ih (vi + 1) values _ hcover2 hlen2
    rw [hstep]
    constructor
    · rw [ihk, hkeys2]
    · intro key ty ax
      rw [ihl key ty ax, List.countP_cons]
      have hset : axisLen (imusSet imus (str "IMU" ++ d.sensorId)
          (pushSeries s0 d.type d.axis (values.get ⟨vi, hvi⟩))) key ty ax =
          axisLen imus key ty ax +
            (if ((str "IMU" ++ d.sensorId) = key ∧ d.type = ty ∧ d.axis = ax) then 1
             else 0) := by
        by_cases hk : (str "IMU" ++ d.sensorId) = key
        · subst hk
          unfold axisLen
          rw [imusFind_imusSet_self hs0, hs0]
          by_cases hta : d.type = ty ∧ d.axis = ax
          · simp [seriesAxis_pushSeries, hta]
          · simp [seriesAxis_pushSeries, hta]
        · unfold axisLen
          rw [imusFind_imusSet_ne (fun hc => hk hc.symm)]
          simp [hk]
      rw [hset]
      by_cases hc : ((str "IMU" ++ d.sensorId) = key ∧ d.type = ty ∧ d.axis = ax)
      · simp [hc]
        omega
      · simp [hc]

theorem processDataLine_eq_of_some (defs : List SensorDef) (acc : List ℚ × Imus)
    (line : List Char) (t : ℚ) (h : acceptedTimestamp line = some t) :
    processDataLine defs acc line =
      (acc.1 ++ [t], processRowDefs defs 1 (lineValues line) acc.2) := by
  unfold processDataLine
  unfold acceptedTimestamp at h
  by_cases h1 : (startsWithChars (str "#") line || (trimChars line).isEmpty) = true
  · simp [h1] at h
  · by_cases h2 : (lineValues line).length < 2
    · simp [h1, h2] at h
    · cases hv : (lineValues line).headD none with
      | none =>
        rw [List.headD_eq_head?] at hv
        simp [h1, h2, hv] at h
      | some t0 =>
        rw [List.headD_eq_head?] at hv
        have ht : t0 = t := by simpa [h1, h2, hv] using h
        subst ht
        simp [h1, h2, hv]

theorem processDataLine_parity (defs : List SensorDef) (initKeys : List (List Char))
    (hcover : ∀ d ∈ defs, (str "IMU" ++ d.sensorId) ∈ initKeys)
    (hcount : ∀ key ∈ initKeys, ∀ ty ax,
      (defs.countP fun d =>
        decide ((str "IMU" ++ d.sensorId) = key ∧ d.type = ty ∧ d.axis = ax)) = 1)
    (line : List Char)
    (hrow : acceptedTimestamp line ≠ none → defs.length + 1 ≤ (lineValues line).length)
    (acc : List ℚ × Imus) (hkeys : acc.2.map Prod.fst = initKeys)
    (hlens : ∀ key ∈ initKeys, ∀ ty ax, axisLen acc.2 key ty ax = acc.1.length) :
    (processDataLine defs acc line).2.map Prod.fst = initKeys ∧
      ∀ key ∈ initKeys, ∀ ty ax,
        axisLen (processDataLine defs acc line).2 key ty ax =
          (processDataLine defs acc line).1.length := by
  by_cases hnone : acceptedTimestamp line = none
  · rw [processDataLine_eq_of_none defs acc line hnone]
    exact ⟨hkeys, hlens⟩
  · obtain ⟨t, ht⟩ := Option.ne_none_iff_exists'.mp hnone
    rw [processDataLine_eq_of_some defs acc line t ht]
    have hlen := hrow hnone
    have hcover' : ∀ d ∈ defs, (str "IMU" ++ d.sensorId) ∈ acc.2.map Prod.fst := by
      intro d hd
      rw [hkeys]
      exact hcover d hd
    obtain ⟨hk2, hl2⟩ := processRowDefs_axisLen defs 1 (lineValues line) acc.2 hcover'
      (by omega)
    refine ⟨by rw [hk2, hkeys], ?_⟩
    intro key hkey ty ax
    rw [hl2 key ty ax, hcount key hkey ty ax, hlens key hkey ty ax]
    simp

theorem foldl_processDataLine_parity (defs : List SensorDef) (initKeys : List (List Char))
    (hcover : ∀ d ∈ defs, (str "IMU" ++ d.sensorId) ∈ initKeys)
    (hcount : ∀ key ∈ initKeys, ∀ ty ax,
      (defs.countP fun d =>
        decide ((str "IMU" ++ d.sensorId) = key ∧ d.type = ty ∧ d.axis = ax)) = 1) :
    ∀ (region : List (List Char)) (acc : List ℚ × Imus),
      (∀ line ∈ region, acceptedTimestamp line ≠ none →
        defs.length + 1 ≤ (lineValues line).length) →
      acc.2.map Prod.fst = initKeys →
      (∀ key ∈ initKeys, ∀ ty ax, axisLen acc.2 key ty ax = acc.1.length) →
        (region.foldl (processDataLine defs) acc).2.map Prod.fst = initKeys ∧
        ∀ key ∈ initKeys, ∀ ty ax,
          axisLen (region.foldl (processDataLine defs) acc).2 key ty ax =
            (region.foldl (processDataLine defs) acc).1.length := by
  intro region
  induction region with
  | nil =>
    intro acc _ hkeys hlens
    exact ⟨hkeys, hlens⟩
  | cons l rest ih =>
    intro acc hrow hkeys hlens
    rw [List.foldl_cons]
    obtain ⟨hk1, hl1⟩ := processDataLine_parity defs initKeys hcover hcount l
      (hrow l (by simp)) acc hkeys hlens
    exact ih _ (fun x hx h => hrow x (by simp [hx]) h) hk1 hl1

theorem expandSensorDefs_mem {count : Nat} {ty : SensorType} {idc : List Char}
    {d : SensorDef} (hd : d ∈ expandSensorDefs count ty idc) :
    d.type = ty ∧ d.sensorId = idc := by
  unfold expandSensorDefs at hd
  simp only [List.mem_map, List.mem_range] at hd
  obtain ⟨j, _, rfl⟩ := hd
  exact ⟨rfl, rfl⟩

theorem mem_addSensorId_of_mem {ids : List (List Char)} {id x : List Char}
    (h : x ∈ ids) : x ∈ addSensorId ids id := by
  unfold addSensorId
  split
  · exact h
  · exact List.mem_append_left _ h

theorem addSensorId_nodup {ids : List (List Char)} (id : List Char)
    (h : ids.Nodup) : (addSensorId ids id).Nodup := by
  by_cases hmem : id ∈ ids
  · simp [addSensorId, hmem, h]
  · simp [addSensorId, hmem, h, List.nodup_append]

theorem processDescriptor_nodup (st : HeaderState) (desc : List Char)
    (h : st.sensorIds.Nodup) : (processDescriptor st desc).sensorIds.Nodup := by
  unfold processDescriptor
  split
  · exact h
  split
  · exact h
  split
  · exact h
  split
  · exact addSensorId_nodup _ h
  split
  · exact h
  · exact h

theorem processDescriptor_cover (st : HeaderState) (desc : List Char)
    (h : ∀ d ∈ st.sensorDefinitions, d.sensorId ∈ st.sensorIds) :
    ∀ d ∈ (processDescriptor st desc).sensorDefinitions,
      d.sensorId ∈ (processDescriptor st desc).sensorIds := by
  unfold processDescriptor
  split
  · exact h
  split
  · exact h
  split
  · exact h
  split
  · intro d hd
    rcases List.mem_append.mp hd with hd | hd
    · exact mem_addSensorId_of_mem (h d hd)
    · rw [(expandSensorDefs_mem hd).2]
      exact mem_addSensorId_self _ _
  split
  · exact h
  · exact h

theorem foldl_processDescriptor_inv :
    ∀ (descs : List (List Char)) (st : HeaderState),
      st.sensorIds.Nodup →
      (∀ d ∈ st.sensorDefinitions, d.sensorId ∈ st.sensorIds) →
        (descs.foldl processDescriptor st).sensorIds.Nodup ∧
        ∀ d ∈ (descs.foldl processDescriptor st).sensorDefinitions,
          d.sensorId ∈ (descs.foldl processDescriptor st).sensorIds := by
  intro descs
  induction descs with
  | nil =>
    intro st h1 h2
    exact ⟨h1, h2⟩
  | cons desc rest ih =>
    intro st h1 h2
    rw [List.foldl_cons]
    exact ih _ (processDescriptor_nodup st desc h1) (processDescriptor_cover st desc h2)

theorem parseColumnHeader_nodup (line : List Char) :
    (parseColumnHeader line).sensorIds.Nodup := by
  unfold parseColumnHeader
  cases hm : headerMatch line with
  | none => simp
  | some p =>
    exact (foldl_processDescriptor_inv (splitOnChar '_' p.2) ⟨[], [], false, false, 0⟩
      (by simp) (by simp)).1

theorem parseColumnHeader_cover (line : List Char) :
    ∀ d ∈ (parseColumnHeader line).sensorDefinitions,
      d.sensorId ∈ (parseColumnHeader line).sensorIds := by
  unfold parseColumnHeader
  cases hm : headerMatch line with
  | none => simp
  | some p =>
    exact (foldl_processDescriptor_inv (splitOnChar '_' p.2) ⟨[], [], false, false, 0⟩
      (by simp) (by simp)).2

theorem wsTokensAux_ne_nil_of_cur :
    ∀ (t cur : List Char), cur ≠ [] → wsTokensAux t cur ≠ [] := by
  intro t
  induction t with
  | nil =>
    intro cur hc
    simp [wsTokensAux, hc]
  | cons c rest ih =>
    intro cur hc
    by_cases hw : isJsSpace c = true
    · simp only [wsTokensAux, hw, if_true, List.isEmpty_eq_true, hc, if_false]
      simp
    · simp only [wsTokensAux, hw, Bool.false_eq_true, if_false]
      exact ih (c :: cur) (by simp)

theorem wsTokens_ne_nil_of_dropWhile :
    ∀ l : List Char, l.dropWhile isJsSpace ≠ [] → wsTokens l ≠ [] := by
  intro l
  induction l with
  | nil => intro h; simp at h
  | cons c t ih =>
    intro h
    by_cases hw : isJsSpace c = true
    · rw [List.dropWhile_cons_of_pos hw] at h
      unfold wsTokens at ih ⊢
      simpa [wsTokensAux, hw] using ih h
    · unfold wsTokens
      simp only [wsTokensAux, hw, Bool.false_eq_true, if_false]
      exact wsTokensAux_ne_nil_of_cur t [c] (by simp)

theorem lineValues_pos_of_trim {line : List Char}
    (h : (trimChars line).isEmpty = false) : 0 < (lineValues line).length := by
  have hd : line.dropWhile isJsSpace ≠ [] := by
    intro hc
    unfold trimChars at h
    rw [hc] at h
    simp at h
  have hne := wsTokens_ne_nil_of_dropWhile line hd
  unfold lineValues
  rw [List.length_map]
  exact List.length_pos.mpr hne

theorem foldl_preserve {α : Type} {P : Imus → Prop} (f : Imus → α → Imus)
    (hf : ∀ imus a, P imus → P (f imus a)) :
    ∀ (l : List α) (imus : Imus), P imus → P (l.foldl f imus) := by
  intro l
  induction l with
  | nil => intro imus h; exact h
  | cons a t ih =>
    intro imus h
    rw [List.foldl_cons]
    exact ih _ (hf imus a h)

theorem seriesLens_setSeriesAt {s : SensorSeries} {n : Nat} (h : seriesLens s n)
    (ty : ColType) (ax : Axis) (i : Nat) (v : JSVal) :
    seriesLens (setSeriesAt s ty ax i v) n := by
  obtain ⟨h1, h2, h3, h4, h5, h6⟩ := h
  cases ty <;> cases ax <;>
    simp [setSeriesAt, setAxisAt, seriesLens, List.length_set, h1, h2, h3, h4, h5, h6]

theorem seriesLens_pushZeroSeries {s : SensorSeries} {n : Nat} (h : seriesLens s n) :
    seriesLens (pushZeroSeries s) (n + 1) := by
  obtain ⟨h1, h2, h3, h4, h5, h6⟩ := h
  simp [pushZeroSeries, pushZeroAxes, seriesLens, h1, h2, h3, h4, h5, h6]

theorem pushZeros_forall {imus : Imus} {n : Nat}
    (h : ∀ p ∈ imus, seriesLens p.2 n) :
    ∀ p ∈ pushZeros imus, seriesLens p.2 (n + 1) := by
  intro p hp
  unfold pushZeros at hp
  simp only [List.mem_map] at hp
  obtain ⟨q, hq, rfl⟩ := hp
  exact seriesLens_pushZeroSeries (h q hq)

theorem assignColumns_forall {cols : List SensorColumn} {values : List JSVal}
    {imus : Imus} {c n : Nat} (h : ∀ p ∈ imus, seriesLens p.2 n) :
    ∀ p ∈ assignColumns cols values imus c, seriesLens p.2 n := by
  unfold assignColumns
  refine @foldl_preserve Nat (fun imus => ∀ p ∈ imus, seriesLens p.2 n) _ ?_ _ imus h
  intro imus j hP
  dsimp only
  split
  · cases hf : imusFind imus (str "IMU" ++ ((cols.getD j
        ⟨ColType.gaitParameter, none, none⟩).sensorId.getD (str "0"))) with
    | none =>
      rw [imusSet_of_find_none hf]
      exact hP
    | some s =>
      simp only [Option.getD_some]
      exact @mem_imusSet_forall (fun s => seriesLens s n) imus _ _ hP
        (seriesLens_setSeriesAt (hP _ (mem_of_imusFind hf)) _ _ _ _)
  · exact hP

theorem initImusFromColumns_empty (cols : List SensorColumn) :
    ∀ p ∈ initImusFromColumns cols, p.2 = emptySeries := by
  unfold initImusFromColumns
  refine @foldl_preserve SensorColumn (fun imus => ∀ p ∈ imus, p.2 = emptySeries) _ ?_ _ []
    (by simp)
  intro imus col hP
  dsimp only
  split
  · exact @mem_imusEnsure_forall (fun s => s = emptySeries) imus _ hP rfl
  · exact hP

theorem multiIMUStep_inv (cols : List SensorColumn) (line : List Char)
    (st : List JSVal × Imus × Nat)
    (h1 : ∀ p ∈ st.2.1, seriesLens p.2 st.2.2) (h2 : st.1.length = st.2.2) :
    (∀ p ∈ (multiIMUStep cols st line).2.1,
      seriesLens p.2 (multiIMUStep cols st line).2.2) ∧
      (multiIMUStep cols st line).1.length = (multiIMUStep cols st line).2.2 := by
  obtain ⟨ts, imus, c⟩ := st
  unfold multiIMUStep
  by_cases hskip : (startsWithChars (str "#") line || (trimChars line).isEmpty) = true
  · simp only [hskip, if_true]
    exact ⟨h1, h2⟩
  · have hfalse : (startsWithChars (str "#") line || (trimChars line).isEmpty) = false :=
      Bool.eq_false_iff.mpr hskip
    have htrim : (trimChars line).isEmpty = false := (Bool.or_eq_false_iff.mp hfalse).2
    have hpos := lineValues_pos_of_trim htrim
    simp only [hskip, Bool.false_eq_true, if_false, hpos, if_pos]
    constructor
    · exact assignColumns_forall (pushZeros_forall h1)
    · simp only [List.length_append, List.length_cons, List.length_nil] at h2 ⊢
      omega

theorem foldl_multiIMUStep_inv (cols : List SensorColumn) :
    ∀ (ls : List (List Char)) (st : List JSVal × Imus × Nat),
      (∀ p ∈ st.2.1, seriesLens p.2 st.2.2) → st.1.length = st.2.2 →
        (∀ p ∈ (ls.foldl (multiIMUStep cols) st).2.1,
          seriesLens p.2 (ls.foldl (multiIMUStep cols) st).2.2) ∧
        (ls.foldl (multiIMUStep cols) st).1.length =
          (ls.foldl (multiIMUStep cols) st).2.2 := by
  intro ls
  induction ls with
  | nil =>
    intro st h1 h2
    exact ⟨h1, h2⟩
  | cons l rest ih =>
    intro st h1 h2
    rw [List.foldl_cons]
    obtain ⟨k1, k2⟩ := multiIMUStep_inv cols l st h1 h2
    exact ih _ k1 k2

theorem imuKeyAppend_injective :
    Function.Injective (fun id : List Char => str "IMU" ++ id) :=
  fun _ _ h => List.append_cancel_left h

/-- Claim C1 (corrected): the unconditional array-length parity with the
fill-with-0 lock-step policy belongs to the fallback demultiplexer
extractMultiIMUData, which the claim also cites: there every IMU's six
arrays always have the length of the timestamps array.  For
AdvancedHeaderParser.parseFileContent the invariant holds only when the
header schema carries each registered sensor's six type/axis
combinations exactly once and every accepted row supplies a value for
the whole schema; a short accepted row pushes only a prefix of the
schema and is not filled with 0. -/
theorem array_parity :
    (∀ (content : String) (k : List Char) (s : SensorSeries),
      (k, s) ∈ (extractMultiIMUData content).imus →
        seriesLens s (extractMultiIMUData content).timestamps.length) ∧
    (∀ (content : String) (r : ParsedFile),
      parseFileContentE content = Except.ok r →
      (∀ id ∈ (parseColumnHeader ((splitContentLines content).getD 1 [])).sensorIds,
        ∀ ty ax,
          ((parseColumnHeader
              ((splitContentLines content).getD 1 [])).sensorDefinitions.countP
            fun d => decide (d.sensorId = id ∧ d.type = ty ∧ d.axis = ax)) = 1) →
      (∀ line ∈ dataRegion (splitContentLines content),
        acceptedTimestamp line ≠ none →
          (parseColumnHeader
              ((splitContentLines content).getD 1 [])).sensorDefinitions.length + 1 ≤
            (lineValues line).length) →
      ∀ p ∈ r.imus, seriesLens p.2 r.timestamps.length) := by
  constructor
  · intro content k s
    unfold extractMultiIMUData
    cases ha : analyzeFileStructureE content with
    | error e =>
      intro hmem
      simp at hmem
    | ok analysis =>
      intro hmem
      have hinit1 : ∀ p ∈ initImusFromColumns analysis.columns, seriesLens p.2 0 := by
        intro p hp
        rw [initImusFromColumns_empty analysis.columns p hp]
        exact ⟨rfl, rfl, rfl, rfl, rfl, rfl⟩
      have hinv := foldl_multiIMUStep_inv analysis.columns
        ((splitContentLines content).drop analysis.dataStartLine)
        ([], initImusFromColumns analysis.columns, 0) hinit1 rfl
      have hlen : ((((splitContentLines content).drop analysis.dataStartLine).foldl
            (multiIMUStep analysis.columns)
            ([], initImusFromColumns analysis.columns, 0)).1.take
          ((((splitContentLines content).drop analysis.dataStartLine).foldl
            (multiIMUStep analysis.columns)
            ([], initImusFromColumns analysis.columns, 0)).2.2)).length =
          ((((splitContentLines content).drop analysis.dataStartLine).foldl
            (multiIMUStep analysis.columns)
            ([], initImusFromColumns analysis.columns, 0)).2.2) := by
        rw [List.length_take, hinv.2]
        omega
      exact hlen ▸ hinv.1 (k, s) hmem
  · intro content r h hcount hrow
    simp only [parseFileContentE] at h
    by_cases hlen : (splitContentLines content).length < 3
    · rw [if_pos hlen] at h
      cases h
    · rw [if_neg hlen] at h
      injection h with h
      subst h
      intro p hp
      obtain ⟨k, s⟩ := p
      have hcover : ∀ d ∈ (parseColumnHeader
          ((splitContentLines content).getD 1 [])).sensorDefinitions,
          (str "IMU" ++ d.sensorId) ∈
            (parseColumnHeader
              ((splitContentLines content).getD 1 [])).sensorIds.map
              (fun id => str "IMU" ++ id) := by
        intro d hd
        exact List.mem_map_of_mem _ (parseColumnHeader_cover _ d hd)
      have hcountK : ∀ key ∈ (parseColumnHeader
          ((splitContentLines content).getD 1 [])).sensorIds.map
            (fun id => str "IMU" ++ id), ∀ ty ax,
          ((parseColumnHeader
              ((splitContentLines content).getD 1 [])).sensorDefinitions.countP
            fun d => decide ((str "IMU" ++ d.sensorId) = key ∧
              d.type = ty ∧ d.axis = ax)) = 1 := by
        intro key hkey ty ax
        simp only [List.mem_map] at hkey
        obtain ⟨id, hid, rfl⟩ := hkey
        refine Eq.trans (List.countP_congr ?_) (hcount id hid ty ax)
        intro d _
        simp only [decide_eq_true_eq]
        constructor
        · rintro ⟨h1, h2⟩
          exact ⟨List.append_cancel_left h1, h2⟩
        · rintro ⟨h1, h2⟩
          exact ⟨by rw [h1], h2⟩
      have hinitkeys : ((parseColumnHeader
          ((splitContentLines content).getD 1 [])).sensorIds.map
            (fun id => (str "IMU" ++ id, emptySeries))).map Prod.fst =
          (parseColumnHeader
            ((splitContentLines content).getD 1 [])).sensorIds.map
            (fun id => str "IMU" ++ id) := by
        rw [List.map_map]
        rfl
      have hinitlens : ∀ key ∈ (parseColumnHeader
          ((splitContentLines content).getD 1 [])).sensorIds.map
            (fun id => str "IMU" ++ id), ∀ ty ax,
          axisLen ((parseColumnHeader
            ((splitContentLines content).getD 1 [])).sensorIds.map
            (fun id => (str "IMU" ++ id, emptySeries))) key ty ax = 0 := by
        intro key _ ty ax
        unfold axisLen
        cases hf : imusFind ((parseColumnHeader
            ((splitContentLines content).getD 1 [])).sensorIds.map
            (fun id => (str "IMU" ++ id, emptySeries))) key with
        | none => simp [seriesAxis_emptySeries]
        | some s0 =>
          have hmem := mem_of_imusFind hf
          simp only [List.mem_map] at hmem
          obtain ⟨id, _, heq⟩ := hmem
          injection heq with hk hs
          rw [← hs]
          simp [seriesAxis_emptySeries]
      have hfold := foldl_processDataLine_parity
        (parseColumnHeader ((splitContentLines content).getD 1 [])).sensorDefinitions
        ((parseColumnHeader ((splitContentLines content).getD 1 [])).sensorIds.map
          (fun id => str "IMU" ++ id)) hcover hcountK
        (dataRegion (splitContentLines content))
        ([], (parseColumnHeader ((splitContentLines content).getD 1 [])).sensorIds.map
          (fun id => (str "IMU" ++ id, emptySeries)))
        hrow hinitkeys (fun key hkey ty ax => hinitlens key hkey ty ax)
      obtain ⟨hfk, hfl⟩ := hfold
      have hnodup : (((dataRegion (splitContentLines content)).foldl
          (processDataLine (parseColumnHeader
            ((splitContentLines content).getD 1 [])).sensorDefinitions)
          ([], (parseColumnHeader ((splitContentLines content).getD 1 [])).sensorIds.map
            (fun id => (str "IMU" ++ id, emptySeries)))).2.map Prod.fst).Nodup := by
        rw [hfk]
        exact (parseColumnHeader_nodup _).map imuKeyAppend_injective
      have hfind := imusFind_of_mem_nodup hnodup hp
      have hkmem : k ∈ (parseColumnHeader
          ((splitContentLines content).getD 1 [])).sensorIds.map
          (fun id => str "IMU" ++ id) := by
        rw [← hfk]
        exact List.mem_map_of_mem Prod.fst hp
      rw [seriesLens_iff]
      intro ty ax
      have hx := hfl k hkmem ty ax
      unfold axisLen at hx
      rw [hfind] at hx
      simpa using hx

/-- Witness for claim C1: a file with one IMU and two complete rows; in
both demultiplexers every array of the single IMU has the length of the
timestamps array. -/
theorem array_parity_witness :
    seriesLens fullRowsMultiSeries
        (extractMultiIMUData fullRowsContent).timestamps.length ∧
      seriesLens
        ⟨⟨[some 1, some 7], [some 2, some 8], [some 3, some 9]⟩,
         ⟨[some 4, some 10], [some 5, some 11], [some 6, some 12]⟩⟩
        fullRowsParsed.timestamps.length := by
  constructor
  · exact array_parity.1 fullRowsContent (str "IMU1") fullRowsMultiSeries
      (by with_unfolding_all decide)
  · exact array_parity.2 fullRowsContent fullRowsParsed
      (by with_unfolding_all decide) (by with_unfolding_all decide)
      (by with_unfolding_all decide)
      (str "IMU1",
        ⟨⟨[some 1, some 7], [some 2, some 8], [some 3, some 9]⟩,
         ⟨[some 4, some 10], [some 5, some 11], [some 6, some 12]⟩⟩)
      (by with_unfolding_all decide)

end GaitVerify
